import Mathlib

/-!
Shallow embedding of the payment-verification and ticket-lifecycle core of
the TheRebootAdventures backend (TypeScript sources under `src/`), together
with theorems checking the specification's claims about it.

Conventions of the embedding:
* JavaScript numbers that hold money amounts are modelled as `ℚ`
  (the code only parses decimal literals and compares them);
  a JavaScript number that may be `NaN` is modelled as `Option ℚ`.
* A JavaScript `Date` value is `JsDate`: either a millisecond timestamp or
  the Invalid Date produced by `new Date(<unparsable>)`.  The parsing
  behaviour of the JS `Date` constructor on free-text strings is abstracted
  as the environment function `Env.parseDate`.
* Node library primitives (`crypto.createHmac(...).digest("hex")`,
  `Buffer.toString("base64url")`, `crypto.randomBytes`) are abstracted as
  environment functions `Env.hmac`, `Env.b64enc` / `Env.b64dec`,
  `Env.randomHex`; the control flow around them is embedded concretely.
* Each `await`ed external effect that the code lets throw is given an
  explicit outcome flag in `Env` (`resendThrows`, `notifyThrows`,
  `regSaveThrows`); a flag set means that effect throws when reached.
* The MongoDB collections are lists of records; `findOne` without a sort is
  `List.find?`, `findOne` with `sort {createdAt: -1}` picks a filtered
  record of maximal `createdAt`, and `save` writes back by document id
  (`oid`), failing exactly when the unique sparse index on `transactionId`
  declared in `invoice.model.ts` would be violated.
-/

namespace Reboot

/-- Invoice status enum of `invoice.model.ts`. -/
inductive InvStatus
  | pending
  | paid
  | failed
  | cancelled
deriving DecidableEq, Repr

/-- EventRegistration status enum of `event-registration.model.ts`. -/
inductive RegStatus
  | registered
  | paymentInitiated
  | confirmed
  | cancelled
deriving DecidableEq, Repr

/-- Ticket status of `qr.service.ts` (`valid | used | expired`). -/
inductive TicketStatus
  | valid
  | used
  | expired
deriving DecidableEq, Repr

/-- Receipt status of the provider interfaces (`valid | invalid`). -/
inductive RcptStatus
  | valid
  | invalid
deriving DecidableEq, Repr

/-- A JavaScript `Date` value: a millisecond timestamp, or an Invalid Date. -/
inductive JsDate
  | valid (ms : Int)
  | invalid
deriving DecidableEq, Repr

/-- The `receiptData` sub-document stored on a paid invoice. -/
structure ReceiptData where
  senderName : String
  confirmedAmount : ℚ
  date : String
  receiver : String
deriving DecidableEq, Repr

/-- The `metadata` record carried by an invoice (`eventName`, `place`, `time`).
In the source it is `Schema.Types.Mixed`; the three fields the core reads are
modelled, each optional because the record is free-form. -/
structure Metadata where
  eventName : Option String
  place : Option String
  time : Option String
deriving DecidableEq, Repr

/-- An `Invoice` document (`invoice.model.ts`).  `oid` is the MongoDB `_id`.
`createdAt` comes from the schema's timestamps and is what the reconciliation
sort reads. -/
structure Invoice where
  oid : Nat
  invoiceId : String
  user : String
  event : Option String
  amount : ℚ
  status : InvStatus
  transactionId : Option String
  paidAt : Option JsDate
  receiptData : Option ReceiptData
  metadata : Metadata
  createdAt : Int
deriving DecidableEq, Repr

/-- An `EventRegistration` document (`event-registration.model.ts`). -/
structure EventReg where
  oid : Nat
  user : String
  event : String
  status : RegStatus
  checkedIn : Bool
  checkedInAt : Option Int
deriving DecidableEq, Repr

/-- An `Event` document (only the fields the core reads). -/
structure EventRec where
  oid : String
  name : String
deriving DecidableEq, Repr

/-- The `telegramData` sub-document of a user (`user.model.ts`). -/
structure TelegramData where
  chatId : Option String
  tgid : Option String
deriving DecidableEq, Repr

/-- A user (`Registration` model of `user.model.ts`); only the fields the
payment flow reads. -/
structure UserRec where
  oid : String
  telegramData : Option TelegramData
deriving DecidableEq, Repr

/-- The mutable persistence state: the four collections the core touches. -/
structure DB where
  invoices : List Invoice
  registrations : List EventReg
  events : List EventRec
  users : List UserRec
deriving DecidableEq, Repr

/-- Ambient execution environment: the clock, the QR secret, the abstracted
Node library primitives, and the outcome flags of the throwing effects. -/
structure Env where
  parseDate : String → Option Int
  now : Int
  secret : String
  hmac : String → String → String
  b64enc : String → String
  b64dec : String → String
  randomHex : String
  fmtDate : Option JsDate → String
  fmtAmt : ℚ → String
  resendThrows : Bool
  notifyThrows : Bool
  regSaveThrows : Bool

/-- `new Date(s)` on a string: a timestamp when parsable, Invalid Date else. -/
def jsNewDate (env : Env) (s : String) : JsDate :=
  match env.parseDate s with
  | some t => JsDate.valid t
  | none => JsDate.invalid

/-- JS `v || d` for an optional string `v`: the default is taken when the
value is absent or the empty string (falsy). -/
def jsOrDefault (v : Option String) (d : String) : String :=
  match v with
  | some s => if s == "" then d else s
  | none => d

/-- JS template interpolation of a possibly-`undefined` string value. -/
def jsTemplateOptStr (v : Option String) : String :=
  match v with
  | some s => s
  | none => "undefined"

/-- `user.telegramData.chatId || user.telegramData.id` (payment.service.ts). -/
def jsChatId (td : TelegramData) : Option String :=
  match td.chatId with
  | some c => some c
  | none => td.tgid

/-- JS `s.startsWith(p)`: `p` is a prefix of `s`, at the character level. -/
def jsStartsWith (s p : String) : Bool :=
  p.data.isPrefixOf s.data

/-- JS `s.trim()`: strip whitespace from both ends. -/
def jsTrim (s : String) : String :=
  String.mk (((s.data.dropWhile Char.isWhitespace).reverse.dropWhile Char.isWhitespace).reverse)

/-- JS `s.toUpperCase()` on the ASCII ids this service sees. -/
def jsToUpper (s : String) : String :=
  String.mk (s.data.map Char.toUpper)

/-- `PaymentService.detectPaymentMethod` (payment.service.ts, lines 21-29):
trim, upper-case, then route on the literal id prefix. -/
def detectPaymentMethod (transactionId : String) : String :=
  let tid := jsToUpper (jsTrim transactionId)
  if jsStartsWith tid "FT" then "cbe"
  else if jsStartsWith tid "CFT" || jsStartsWith tid "DFT" then "boa"
  else "telebirr"

/-- `amountStr.replace(/[^0-9.]/g, "")`: keep only digits and dots. -/
def stripNonNumeric (s : String) : String :=
  String.mk (s.data.filter (fun c => c.isDigit || c == '.'))

/-- Value of a digit list read in base 10. -/
def digitsVal (l : List Char) : Nat :=
  l.foldl (fun a c => a * 10 + (c.toNat - '0'.toNat)) 0

/-- Digit split of JS `parseFloat` on its post-strip input domain (strings
of digits and dots, which is all the providers ever hand it): the integer
and fraction digits of the longest numeric prefix, `none` when there is no
leading digit at all (JS `NaN`). -/
def parseFloatSplit (cs : List Char) : Option (List Char × List Char) :=
  let intPart := cs.takeWhile Char.isDigit
  match cs.drop intPart.length with
  | '.' :: rest2 =>
    let frac := rest2.takeWhile Char.isDigit
    if intPart.isEmpty && frac.isEmpty then none else some (intPart, frac)
  | _ => if intPart.isEmpty then none else some (intPart, [])

/-- JS `parseFloat` on its post-strip input domain, as a rational. -/
def parseFloatNum (s : String) : Option ℚ :=
  match parseFloatSplit s.data with
  | none => none
  | some (ip, fp) => some ((digitsVal ip : ℚ) + (digitsVal fp : ℚ) / ((10 : ℚ) ^ fp.length))

/-- JS `parseInt(s)` in base 10: skip whitespace, optional sign, leading
digits; `none` models `NaN`. -/
def jsParseInt (s : String) : Option Int :=
  let cs := s.data.dropWhile Char.isWhitespace
  let signed : Int × List Char :=
    match cs with
    | '-' :: r => (-1, r)
    | '+' :: r => (1, r)
    | r => (1, r)
  let digits := signed.2.takeWhile Char.isDigit
  if digits.isEmpty then none else some (signed.1 * (digitsVal digits : Int))

/-- A receipt as produced by `TelebirrService.verifyTransaction`
(telebirr.service.ts).  The service always fills `receiverName` (it defaults
to `"Unknown"`), so the field is a plain string here. -/
structure TelebirrReceipt where
  transactionId : String
  senderName : String
  receiverName : String
  amount : ℚ
  date : String
  status : RcptStatus
deriving DecidableEq, Repr

/-- Tail of `TelebirrService.verifyTransaction` (telebirr.service.ts, lines
226-240 of the current revision), after the HTML extraction produced the
label values: clean the amount string, `parseFloat` it, and throw
`"Could not parse amount from receipt"` when the result is falsy (`NaN` or
`0`); otherwise return a receipt with status `valid`. -/
def telebirrFinishParse (transactionId senderName receiverName amountStr dateStr : String) :
    Except String TelebirrReceipt :=
  match parseFloatNum (stripNonNumeric amountStr) with
  | none => Except.error "Could not parse amount from receipt"
  | some a =>
    if a = 0 then Except.error "Could not parse amount from receipt"
    else Except.ok
      { transactionId := transactionId, senderName := senderName,
        receiverName := receiverName, amount := a, date := dateStr,
        status := RcptStatus.valid }

/-- Observable outcome of `TelebirrService.verifyTransaction` for a fetched
document: the catch block rethrows every non-network error other than
`"Invalid transaction ID"` as the generic verification failure message. -/
def telebirrVerifyOutcome (transactionId senderName receiverName amountStr dateStr : String) :
    Except String TelebirrReceipt :=
  match telebirrFinishParse transactionId senderName receiverName amountStr dateStr with
  | Except.ok r => Except.ok r
  | Except.error e =>
    if e == "Invalid transaction ID" then Except.error e
    else Except.error "Failed to verify transaction. Please check the transaction number and try again."

/-- A receipt as produced by `BankVerifierService` (bank-verifier service
file).  `amount` is `Option ℚ` because the CBE path can store a `NaN`
(`parseFloat` of a captured string such as `"..."`). -/
structure BankReceipt where
  transactionId : String
  senderName : String
  receiverName : Option String
  amount : Option ℚ
  date : String
  status : RcptStatus
deriving DecidableEq, Repr

/-- One position attempt of the regex `/Transferred Amount\s+([\d,.]+)\s+ETB/`:
the literal label, one or more whitespace, the captured `[\d,.]+` group, one
or more whitespace, the literal `ETB`. -/
def dropLit : List Char → List Char → Option (List Char)
  | [], l => some l
  | _ :: _, [] => none
  | p :: ps, c :: cs => if p = c then dropLit ps cs else none

/-- Character class `[\d,.]` of the CBE amount capture. -/
def isAmtChar (c : Char) : Bool :=
  c.isDigit || c == ',' || c == '.'

/-- Try the CBE amount regex anchored at the head of `l`; return the capture. -/
def cbeTryMatchAt (l : List Char) : Option (List Char) :=
  match dropLit "Transferred Amount".data l with
  | none => none
  | some r1 =>
    let ws1 := r1.takeWhile Char.isWhitespace
    if ws1.isEmpty then none else
    let r2 := r1.drop ws1.length
    let cap := r2.takeWhile isAmtChar
    if cap.isEmpty then none else
    let r3 := r2.drop cap.length
    let ws2 := r3.takeWhile Char.isWhitespace
    if ws2.isEmpty then none else
    match dropLit "ETB".data (r3.drop ws2.length) with
    | none => none
    | some _ => some cap

/-- Scan of the CBE receipt text for the first match of the amount regex. -/
def cbeScanAmount : List Char → Option (List Char)
  | [] => none
  | c :: rest =>
    match cbeTryMatchAt (c :: rest) with
    | some cap => some cap
    | none => cbeScanAmount rest

/-- Parsing tail of `BankVerifierService.verifyCBE` (lines 86-103 of the
bank-verifier service): match the amount regex against the extracted text
(throwing when it fails), `parseFloat` the capture with commas removed, and
return a receipt with status `valid`.  The payer and date regex results are
abstracted as the already-extracted `payer` and `dateStr` parameters. -/
def verifyCBEParse (transactionId text : String) (payer dateStr : Option String)
    (nowIso : String) : Except String BankReceipt :=
  match cbeScanAmount text.data with
  | none => Except.error "Could not parse amount from CBE receipt. Transaction might not exist or format changed."
  | some cap =>
    Except.ok
      { transactionId := transactionId,
        senderName := (match payer with | some p => p | none => "Unknown"),
        receiverName := none,
        amount := parseFloatNum (String.mk (cap.filter (fun c => c ≠ ','))),
        date := (match dateStr with | some d => d | none => nowIso),
        status := RcptStatus.valid }

/-- Observable outcome of `BankVerifierService.verifyCBE` for a fetched
document: a deterministic parse failure is retried `maxAttempts = 3` times
and then wrapped in the final failure message. -/
def cbeVerifyOutcome (transactionId text : String) (payer dateStr : Option String)
    (nowIso : String) : Except String BankReceipt :=
  match verifyCBEParse transactionId text payer dateStr nowIso with
  | Except.ok r => Except.ok r
  | Except.error e => Except.error ("Failed to verify CBE transaction after 3 attempts: " ++ e)

/-- `registration?.checkedIn` as read by `determineTicketStatus`. -/
def checkedInB (reg : Option EventReg) : Bool :=
  match reg with
  | some r => r.checkedIn
  | none => false

/-- `QRService.determineTicketStatus` (qr.service.ts, lines 152-169):
`used` when the registration is checked in; else `expired` when the invoice
metadata carries an event time that parses and lies strictly in the past
(the JS comparison `now > new Date(time)` is false on an Invalid Date);
else `valid`. -/
def determineTicketStatus (env : Env) (invoice : Invoice) (registration : Option EventReg) :
    TicketStatus :=
  if checkedInB registration then TicketStatus.used
  else
    match invoice.metadata.time with
    | some t =>
      if t == "" then TicketStatus.valid
      else
        match env.parseDate t with
        | some eventTime =>
          if eventTime < env.now then TicketStatus.expired else TicketStatus.valid
        | none => TicketStatus.valid
    | none => TicketStatus.valid

/-- JS `decoded.split(":")` at the character level. -/
def splitColon (s : String) : List String :=
  (s.data.splitOn ':').map String.mk

/-- The derived `TicketReference` record of qr.service.ts. -/
structure TicketRef where
  reference : String
  invoiceId : String
  transactionId : String
  userId : String
  eventName : String
  amount : ℚ
  status : TicketStatus
  createdAt : JsDate
  signature : String
deriving DecidableEq, Repr

/-- Registration lookup of `verifyTicketReference` (qr.service.ts, lines
108-125): first by `(user, event)` — when the invoice has no event
reference the query carries `event: undefined` and is modelled as finding
nothing, `event` being a required schema field — then the legacy fallback
through `Event.findOne({name})` by the invoice metadata event name. -/
def regLookup (db : DB) (invoice : Invoice) : Option EventReg :=
  let primary : Option EventReg :=
    match invoice.event with
    | some ev => db.registrations.find? (fun r => r.user == invoice.user && r.event == ev)
    | none => none
  match primary with
  | some r => some r
  | none =>
    match invoice.metadata.eventName with
    | some en =>
      if en == "" then none
      else
        match db.events.find? (fun e => e.name == en) with
        | some e => db.registrations.find? (fun r => r.user == invoice.user && r.event == e.oid)
        | none => none
    | none => none

/-- `QRService.generateSecureReference` (qr.service.ts, lines 52-68):
canonical string `invoiceId:transactionId:timestamp:random`, HMAC under the
server secret, concatenation, base64url. -/
def generateSecureReference (env : Env) (invoice : Invoice) : String :=
  let data := invoice.invoiceId ++ ":" ++ jsTemplateOptStr invoice.transactionId ++ ":" ++
    toString env.now ++ ":" ++ env.randomHex
  let signature := env.hmac env.secret data
  env.b64enc (data ++ ":" ++ signature)

/-- `QRService.verifyTicketReference` (qr.service.ts, lines 73-147): decode,
split into exactly five parts, recompute and compare the MAC, look up the
paid invoice by `(invoiceId, transactionId, status)`, find the registration,
and assemble the live ticket reference. -/
def verifyTicketReference (db : DB) (env : Env) (reference : String) :
    Except String TicketRef :=
  let decoded := env.b64dec reference
  match splitColon decoded with
  | [invoiceId, transactionId, timestamp, random, signature] =>
    let dataToVerify := invoiceId ++ ":" ++ transactionId ++ ":" ++ timestamp ++ ":" ++ random
    if signature ≠ env.hmac env.secret dataToVerify then
      Except.error "Invalid signature - possible fraud"
    else
      match db.invoices.find? (fun i =>
          i.invoiceId == invoiceId && i.transactionId == some transactionId &&
          decide (i.status = InvStatus.paid)) with
      | none => Except.error "Invoice not found or not paid"
      | some invoice =>
        let registration := regLookup db invoice
        Except.ok
          { reference := reference, invoiceId := invoiceId,
            transactionId := transactionId, userId := invoice.user,
            eventName := jsOrDefault invoice.metadata.eventName "Event",
            amount := invoice.amount,
            status := determineTicketStatus env invoice registration,
            createdAt :=
              (match jsParseInt timestamp with
               | some t => JsDate.valid t
               | none => JsDate.invalid),
            signature := signature }
  | _ => Except.error "Invalid reference format"

/-- Result shape of the ticket check-in endpoint. -/
structure MTUResult where
  success : Bool
  message : String
deriving DecidableEq, Repr

/-- Event resolution of `markTicketUsed` (ticket.controller.ts, lines
383-392): the invoice's direct event reference, with the legacy fallback of
looking the event up by the metadata event name. -/
def resolveEventId (db : DB) (invoice : Option Invoice) : Option String :=
  match invoice with
  | none => none
  | some inv =>
    match inv.event with
    | some e => some e
    | none =>
      match inv.metadata.eventName with
      | some en =>
        if en == "" then none
        else (db.events.find? (fun e => e.name == en)).map (fun e => e.oid)
      | none => none

/-- Registration resolution of `markTicketUsed` (ticket.controller.ts, lines
424-436): by `(user, event)`, falling back to the user's first registration. -/
def resolveRegistration (db : DB) (inv : Invoice) (eid : String) : Option EventReg :=
  match db.registrations.find? (fun r => r.user == inv.user && r.event == eid) with
  | some r => some r
  | none => db.registrations.find? (fun r => r.user == inv.user)

/-- `TicketController.markTicketUsed` (ticket.controller.ts, lines 345-478 of
the current revision): verify the reference; reject `used` / `expired`
tickets; resolve the event (directly or by legacy name); find the
registration (with the by-user-only fallback); reject an already
checked-in registration; otherwise set `checkedIn` and `checkedInAt` and
save.  A throw from `verifyTicketReference` is caught and reported as a
failure carrying the error message. -/
def markTicketUsed (db : DB) (env : Env) (reference : String) : MTUResult × DB :=
  match verifyTicketReference db env reference with
  | Except.error msg => ({ success := false, message := msg }, db)
  | Except.ok td =>
    let invoice := db.invoices.find? (fun i => i.invoiceId == td.invoiceId)
    let eventId := resolveEventId db invoice
    if td.status = TicketStatus.used ∨ td.status = TicketStatus.expired then
      ({ success := false,
         message := if td.status = TicketStatus.expired then "This ticket has expired"
                    else "Ticket has already been used" }, db)
    else
      match invoice, eventId with
      | some inv, some eid =>
        match resolveRegistration db inv eid with
        | none => ({ success := false, message := "Registration not found" }, db)
        | some r =>
          if r.checkedIn then
            ({ success := false, message := "User already checked in" }, db)
          else
            ({ success := true, message := "Checked in successfully!" },
             { db with registrations := db.registrations.map (fun q =>
                 if q.oid == r.oid then
                   { q with checkedIn := true, checkedInAt := some env.now }
                 else q) })
      | _, _ => ({ success := false, message := "Associated event not found" }, db)

/-- A receipt as consumed by `PaymentService.verifyPayment`: the common shape
of the three provider outputs. -/
structure Receipt where
  transactionId : String
  senderName : String
  receiverName : Option String
  amount : ℚ
  date : String
  status : RcptStatus
deriving DecidableEq, Repr

/-- Result shape of `PaymentService.verifyPayment`. -/
structure VPResult where
  success : Bool
  message : String
  invoice : Option Invoice
deriving DecidableEq, Repr

/-- Accumulator step realising `findOne(filter).sort({createdAt: -1})`: keep
the record with the larger `createdAt` (the earlier record on a tie). -/
def maxStep (acc : Option Invoice) (i : Invoice) : Option Invoice :=
  match acc with
  | none => some i
  | some j => if j.createdAt < i.createdAt then some i else some j

/-- `Invoice.findOne(filter).sort({createdAt: -1})`: a filtered record of
maximal `createdAt`. -/
def findLatestSorted (p : Invoice → Bool) (l : List Invoice) : Option Invoice :=
  (l.filter p).foldl maxStep none

/-- Filter of the event-hinted candidate query (payment.service.ts, lines
201-206): owner, matching metadata event name, amount at most the paid
amount, status pending. -/
def pendingFilterHint (userId en : String) (amt : ℚ) (i : Invoice) : Bool :=
  i.user == userId && i.metadata.eventName == some en &&
    decide (i.amount ≤ amt) && decide (i.status = InvStatus.pending)

/-- Filter of the fallback candidate query (payment.service.ts, lines
211-215): owner, amount at most the paid amount, status pending. -/
def pendingFilterBase (userId : String) (amt : ℚ) (i : Invoice) : Bool :=
  i.user == userId && decide (i.amount ≤ amt) && decide (i.status = InvStatus.pending)

/-- The event-hinted query of `verifyPayment` (lines 199-207): run only when
a (truthy) event name was supplied. -/
def hintCandidate (db : DB) (userId : String) (amt : ℚ) (eventName : Option String) :
    Option Invoice :=
  match eventName with
  | some en =>
    if en == "" then none
    else findLatestSorted (pendingFilterHint userId en amt) db.invoices
  | none => none

/-- Candidate selection of `PaymentService.verifyPayment` (lines 195-216):
the event-hinted query first when a (truthy) event name is supplied, then
the fallback query when that found nothing. -/
def selectCandidate (db : DB) (userId : String) (amt : ℚ) (eventName : Option String) :
    Option Invoice :=
  match hintCandidate db userId amt eventName with
  | some c => some c
  | none => findLatestSorted (pendingFilterBase userId amt) db.invoices

/-- Filter of the idempotency lookup (payment.service.ts, lines 129-132):
an invoice already holding this transaction id in `paid` state. -/
def paidWithTx (txid : String) (i : Invoice) : Bool :=
  i.transactionId == some txid && decide (i.status = InvStatus.paid)

/-- `receiptData.receiver` (payment.service.ts, lines 230-232): the receipt's
receiver name when present, non-empty and not `"Unknown"`; otherwise the
literal `"Reboot Adventures"`. -/
def receiverFrom (receiverName : Option String) : String :=
  match receiverName with
  | some r => if r != "" && r != "Unknown" then r else "Reboot Adventures"
  | none => "Reboot Adventures"

/-- The in-memory update of the matched pending invoice (payment.service.ts,
lines 222-233): status `paid`, the transaction id, `paidAt := new
Date(receipt.date)` (with no fallback to the current time), and the copied
receipt data.  Whether the assigned `paidAt` value can actually be persisted
is decided at save time by the schema's Date cast (`saveCastFails`). -/
def commitInvoice (env : Env) (txid : String) (receipt : Receipt) (cand : Invoice) : Invoice :=
  { cand with
    status := InvStatus.paid
    transactionId := some txid
    paidAt := some (jsNewDate env receipt.date)
    receiptData := some
      { senderName := receipt.senderName
        confirmedAmount := receipt.amount
        date := receipt.date
        receiver := receiverFrom receipt.receiverName } }

/-- Mongoose's Date cast on the `paidAt` path (invoice.model.ts declares
`paidAt: { type: Date }`): assigning an Invalid Date records a `CastError`
on the document and `save()` rejects with a `ValidationError` before
anything reaches the server, so an Invalid Date can never be persisted. -/
def saveCastFails (upd : Invoice) : Bool :=
  decide (upd.paidAt = some JsDate.invalid)

/-- The unique sparse index on `transactionId` (invoice.model.ts, line 166):
`save` raises `E11000` exactly when a different document already holds the
transaction id. -/
def saveConflict (db : DB) (cand : Invoice) (txid : String) : Bool :=
  db.invoices.any (fun i => i.oid != cand.oid && i.transactionId == some txid)

/-- Persist an updated invoice document by its `_id`. -/
def saveInvoice (db : DB) (upd : Invoice) : DB :=
  { db with invoices := db.invoices.map (fun i => if i.oid == upd.oid then upd else i) }

/-- Step 4 of `verifyPayment` (payment.service.ts, lines 237-255): when the
invoice metadata names an event, look the event up by name, find the owner's
registration for it, set its status to `confirmed` and save.  The step runs
with no try/catch of its own; the returned flag records whether the
`registration.save()` throw (modelled by `Env.regSaveThrows`) escaped. -/
def confirmRegistration (db : DB) (env : Env) (upd : Invoice) : Bool × DB :=
  match upd.metadata.eventName with
  | none => (false, db)
  | some en =>
    if en == "" then (false, db)
    else
      match db.events.find? (fun e => e.name == en) with
      | none => (false, db)
      | some ev =>
        match db.registrations.find? (fun r => r.user == upd.user && r.event == ev.oid) with
        | none => (false, db)
        | some reg =>
          if env.regSaveThrows then (true, db)
          else
            (false, { db with registrations := db.registrations.map (fun q =>
               if q.oid == reg.oid then { q with status := RegStatus.confirmed } else q) })

/-- Step 5 of `verifyPayment` (payment.service.ts, lines 257-295): look the
user up and, when a chat id exists, generate and send the QR inside a local
try/catch — a throw there (`Env.notifyThrows`) is swallowed, so the step
never changes state or outcome. -/
def notifyStep (env : Env) (db : DB) (upd : Invoice) : DB :=
  match db.users.find? (fun u => u.oid == upd.user) with
  | none => db
  | some u =>
    match u.telegramData with
    | none => db
    | some td =>
      match jsChatId td with
      | none => db
      | some _ => if env.notifyThrows then db else db

/-- The fresh-reconciliation path of `verifyPayment` (payment.service.ts,
lines 195-301): select a candidate and commit it.  The `save()` can reject
in two ways, both landing in the outer catch as a reported failure with
nothing persisted: the client-side Date cast of `paidAt` rejects an Invalid
Date (checked first — casting and validation run before the write is sent),
and the server-side unique index turns a consumed transaction id into a
thrown `E11000`.  A successful save is followed by the
registration-confirmation and notification steps. -/
def verifyPaymentFresh (db : DB) (env : Env) (transactionId userId : String)
    (eventName : Option String) (receipt : Receipt) : VPResult × DB :=
  match selectCandidate db userId receipt.amount eventName with
  | none =>
    ({ success := false,
       message := "No pending invoice found for amount " ++ env.fmtAmt receipt.amount ++
         " ETB. Looking for invoice <= " ++ env.fmtAmt receipt.amount ++ " ETB",
       invoice := none }, db)
  | some cand =>
    let upd := commitInvoice env transactionId receipt cand
    if saveCastFails upd then
      ({ success := false,
         message := "Invoice validation failed: paidAt: Cast to date failed",
         invoice := none }, db)
    else if saveConflict db cand transactionId then
      ({ success := false, message := "E11000 duplicate key error", invoice := none }, db)
    else
      let db1 := saveInvoice db upd
      match confirmRegistration db1 env upd with
      | (true, db2) =>
        ({ success := false, message := "registration save failed", invoice := none }, db2)
      | (false, db2) =>
        let db3 := notifyStep env db2 upd
        ({ success := true, message := "Payment verified successfully", invoice := some upd }, db3)

/-- The duplicate-submission path of `verifyPayment` (payment.service.ts,
lines 134-193): the transaction id is already on a paid invoice of this very
user; try to resend the QR (a throw is caught and reported as a failure that
still carries the invoice); on success — or when no chat route exists —
report success carrying the invoice.  No state is written. -/
def verifyPaymentDup (db : DB) (env : Env) (ex : Invoice) : VPResult × DB :=
  let okMsg := "QR code resent for " ++ jsOrDefault ex.metadata.eventName "Event" ++
    ". Your payment was verified on " ++ env.fmtDate ex.paidAt ++ "."
  let failMsg := "Already paid for event: " ++ jsOrDefault ex.metadata.eventName "Event" ++
    ". Your payment was verified on " ++ env.fmtDate ex.paidAt ++ ". Failed to resend QR code."
  match db.users.find? (fun u => u.oid == ex.user) with
  | some u =>
    match u.telegramData with
    | some td =>
      match jsChatId td with
      | some _ =>
        if env.resendThrows then
          ({ success := false, message := failMsg, invoice := some ex }, db)
        else
          ({ success := true, message := okMsg, invoice := some ex }, db)
      | none => ({ success := true, message := okMsg, invoice := some ex }, db)
    | none => ({ success := true, message := okMsg, invoice := some ex }, db)
  | none => ({ success := true, message := okMsg, invoice := some ex }, db)

/-- `PaymentService.verifyPayment` (payment.service.ts, lines 103-307) from
the point where the provider call has resolved: an invalid receipt is
rejected; a transaction id already on a paid invoice of the same user takes
the duplicate path; anything else (including one on a paid invoice of a
different user) falls through to fresh reconciliation.  A provider throw
(`receiptResult = error`) lands in the outer catch. -/
def verifyPayment (db : DB) (env : Env) (transactionId userId : String)
    (eventName : Option String) (receiptResult : Except String Receipt) : VPResult × DB :=
  match receiptResult with
  | Except.error msg => ({ success := false, message := msg, invoice := none }, db)
  | Except.ok receipt =>
    if receipt.status = RcptStatus.valid then
      match db.invoices.find? (paidWithTx transactionId) with
      | some ex =>
        if ex.user == userId then verifyPaymentDup db env ex
        else verifyPaymentFresh db env transactionId userId eventName receipt
      | none => verifyPaymentFresh db env transactionId userId eventName receipt
    else
      ({ success := false, message := "Invalid transaction receipt", invoice := none }, db)

/-! Helper lemmas. -/

/-- A three-letter prefix beginning in `C` or `D` rules out the prefix `FT`. -/
lemma not_ft_of_cft_dft (s : String) :
    (jsStartsWith s "CFT" = true ∨ jsStartsWith s "DFT" = true) →
    jsStartsWith s "FT" = false := by
  intro h
  simp only [jsStartsWith] at h ⊢
  rw [Bool.eq_false_iff]
  intro h2
  rw [List.isPrefixOf_iff_prefix] at h2
  obtain ⟨u, hu⟩ := h2
  rcases h with h | h
  · rw [List.isPrefixOf_iff_prefix] at h
    obtain ⟨t, ht⟩ := h
    rw [← ht] at hu
    simp [show "FT".data = ['F', 'T'] from rfl,
      show "CFT".data = ['C', 'F', 'T'] from rfl] at hu
  · rw [List.isPrefixOf_iff_prefix] at h
    obtain ⟨t, ht⟩ := h
    rw [← ht] at hu
    simp [show "FT".data = ['F', 'T'] from rfl,
      show "DFT".data = ['D', 'F', 'T'] from rfl] at hu

/-- `maxStep` always produces a record, of maximal `createdAt` so far, that
is either the new element or the accumulator. -/
lemma maxStep_some (acc : Option Invoice) (a : Invoice) :
    ∃ k, maxStep acc a = some k ∧ a.createdAt ≤ k.createdAt ∧
      (∀ j, acc = some j → j.createdAt ≤ k.createdAt) ∧ (k = a ∨ acc = some k) := by
  cases acc with
  | none =>
    exact ⟨a, rfl, le_refl _, fun j hj => Option.noConfusion hj, Or.inl rfl⟩
  | some j =>
    by_cases hlt : j.createdAt < a.createdAt
    · refine ⟨a, by simp [maxStep, hlt], le_refl _, fun j2 hj2 => ?_, Or.inl rfl⟩
      injection hj2 with e
      rw [← e]
      exact le_of_lt hlt
    · refine ⟨j, by simp [maxStep, hlt], le_of_not_lt hlt, fun j2 hj2 => ?_, Or.inr rfl⟩
      injection hj2 with e
      rw [← e]

/-- A fold of `maxStep` that yields a record got it from the list or from the
accumulator. -/
lemma foldl_maxStep_mem (l : List Invoice) :
    ∀ acc i, l.foldl maxStep acc = some i → acc = some i ∨ i ∈ l := by
  induction l with
  | nil => exact fun acc i h => Or.inl h
  | cons a t ih =>
    intro acc i h
    rw [List.foldl_cons] at h
    obtain ⟨k, hk, -, -, hka⟩ := maxStep_some acc a
    rw [hk] at h
    rcases ih (some k) i h with h1 | h1
    · injection h1 with e
      rcases hka with h2 | h2
      · exact Or.inr (by rw [← e, h2]; exact List.mem_cons_self a t)
      · exact Or.inl (by rw [h2, e])
    · exact Or.inr (List.mem_cons_of_mem a h1)

/-- A fold of `maxStep` yields a record whose `createdAt` dominates the list
and the accumulator. -/
lemma foldl_maxStep_ge (l : List Invoice) :
    ∀ acc i, l.foldl maxStep acc = some i →
      (∀ j ∈ l, j.createdAt ≤ i.createdAt) ∧
      (∀ j, acc = some j → j.createdAt ≤ i.createdAt) := by
  induction l with
  | nil =>
    intro acc i h
    rw [List.foldl_nil] at h
    refine ⟨fun j hj => absurd hj (List.not_mem_nil j), fun j hj => ?_⟩
    rw [h] at hj
    injection hj with e
    rw [e]
  | cons a t ih =>
    intro acc i h
    rw [List.foldl_cons] at h
    obtain ⟨k, hk, hak, hacck, -⟩ := maxStep_some acc a
    rw [hk] at h
    obtain ⟨ht, hki⟩ := ih (some k) i h
    have hk2 : k.createdAt ≤ i.createdAt := hki k rfl
    refine ⟨fun j hj => ?_, fun j hj => le_trans (hacck j hj) hk2⟩
    rcases List.mem_cons.mp hj with rfl | hj2
    · exact le_trans hak hk2
    · exact ht j hj2

/-- A fold of `maxStep` from a nonempty accumulator never yields `none`. -/
lemma foldl_maxStep_ne_none (l : List Invoice) :
    ∀ a, l.foldl maxStep (some a) ≠ none := by
  induction l with
  | nil => exact fun a h => Option.noConfusion h
  | cons b t ih =>
    intro a h
    rw [List.foldl_cons] at h
    obtain ⟨k, hk, -, -, -⟩ := maxStep_some (some a) b
    rw [hk] at h
    exact ih k h

/-- What a successful `findOne(filter).sort({createdAt: -1})` returns: a
record of the list satisfying the filter, with maximal `createdAt` among the
records satisfying the filter. -/
lemma findLatestSorted_spec (p : Invoice → Bool) (l : List Invoice) (i : Invoice)
    (h : findLatestSorted p l = some i) :
    p i = true ∧ i ∈ l ∧ ∀ j ∈ l, p j = true → j.createdAt ≤ i.createdAt := by
  rw [findLatestSorted] at h
  rcases foldl_maxStep_mem _ _ _ h with h1 | h1
  · exact Option.noConfusion h1
  · obtain ⟨hmem, hp⟩ := List.mem_filter.mp h1
    refine ⟨hp, hmem, fun j hj hpj => ?_⟩
    exact (foldl_maxStep_ge _ _ _ h).1 j (List.mem_filter.mpr ⟨hj, hpj⟩)

/-- A failed `findOne(filter).sort(...)` means no record satisfies the filter. -/
lemma findLatestSorted_none (p : Invoice → Bool) (l : List Invoice)
    (h : findLatestSorted p l = none) : ∀ j ∈ l, p j = false := by
  intro j hj
  by_contra hb
  have hpj : p j = true := by
    cases hpv : p j with
    | false => exact absurd hpv hb
    | true => rfl
  have hmem : j ∈ l.filter p := List.mem_filter.mpr ⟨hj, hpj⟩
  rw [findLatestSorted] at h
  cases hf : l.filter p with
  | nil => rw [hf] at hmem; exact absurd hmem (List.not_mem_nil j)
  | cons b t =>
    rw [hf, List.foldl_cons] at h
    exact foldl_maxStep_ne_none t b (by simpa [maxStep] using h)

/-- Unfolded meaning of the event-hinted candidate filter. -/
lemma pendingFilterHint_iff (uid en : String) (amt : ℚ) (i : Invoice) :
    pendingFilterHint uid en amt i = true ↔
      i.user = uid ∧ i.metadata.eventName = some en ∧ i.amount ≤ amt ∧
        i.status = InvStatus.pending := by
  simp [pendingFilterHint, and_assoc]

/-- Unfolded meaning of the fallback candidate filter. -/
lemma pendingFilterBase_iff (uid : String) (amt : ℚ) (i : Invoice) :
    pendingFilterBase uid amt i = true ↔
      i.user = uid ∧ i.amount ≤ amt ∧ i.status = InvStatus.pending := by
  simp [pendingFilterBase, and_assoc]

/-- What a successful candidate selection returns: a pending invoice of the
user, within the amount, from the store. -/
lemma selectCandidate_spec (db : DB) (uid : String) (amt : ℚ) (hint : Option String)
    (i : Invoice) (h : selectCandidate db uid amt hint = some i) :
    i ∈ db.invoices ∧ i.status = InvStatus.pending ∧ i.user = uid ∧ i.amount ≤ amt := by
  rcases hfc : hintCandidate db uid amt hint with _ | c
  · simp only [selectCandidate, hfc] at h
    obtain ⟨hp, hmem, -⟩ := findLatestSorted_spec _ _ _ h
    obtain ⟨h1, h2, h3⟩ := (pendingFilterBase_iff uid amt i).mp hp
    exact ⟨hmem, h3, h1, h2⟩
  · simp only [selectCandidate, hfc] at h
    injection h with e
    subst e
    rcases hint with _ | en
    · exact Option.noConfusion hfc
    · rw [hintCandidate] at hfc
      by_cases hne : (en == "") = true
      · rw [if_pos hne] at hfc
        exact Option.noConfusion hfc
      · rw [if_neg hne] at hfc
        obtain ⟨hp, hmem, -⟩ := findLatestSorted_spec _ _ _ hfc
        obtain ⟨h1, h2, h3, h4⟩ := (pendingFilterHint_iff uid en amt c).mp hp
        exact ⟨hmem, h4, h1, h3⟩

/-- Distinct records of an oid-pairwise-distinct list have distinct oids. -/
lemma pairwise_oid_ne {l : List Invoice} (hwf : l.Pairwise (fun a b => a.oid ≠ b.oid))
    {a b : Invoice} (ha : a ∈ l) (hb : b ∈ l) (hne : a ≠ b) : a.oid ≠ b.oid := by
  induction l with
  | nil => exact absurd ha (List.not_mem_nil a)
  | cons x t ih =>
    rw [List.pairwise_cons] at hwf
    obtain ⟨hx, ht⟩ := hwf
    rcases List.mem_cons.mp ha with rfl | ha2
    · rcases List.mem_cons.mp hb with rfl | hb2
      · exact absurd rfl hne
      · exact hx b hb2
    · rcases List.mem_cons.mp hb with rfl | hb2
      · exact fun he => (hx a ha2) he.symm
      · exact ih ht ha2 hb2

/-- The notification step never changes the store: its only fallible effects
sit inside the local try/catch. -/
lemma notifyStep_eq (env : Env) (db : DB) (upd : Invoice) : notifyStep env db upd = db := by
  rw [notifyStep]
  split
  · rfl
  · split
    · rfl
    · split
      · rfl
      · split <;> rfl

/-- The registration-confirmation step never touches the invoices. -/
lemma confirmRegistration_invoices (db : DB) (env : Env) (upd : Invoice) :
    (confirmRegistration db env upd).2.invoices = db.invoices := by
  rcases hm : upd.metadata.eventName with _ | en
  · simp [confirmRegistration, hm]
  · by_cases he : (en == "") = true
    · simp [confirmRegistration, hm, he]
    · have he2 : (en == "") = false := by simpa using he
      rcases hev : db.events.find? (fun e => e.name == en) with _ | ev
      · simp [confirmRegistration, hm, he2, hev]
      · rcases hr : db.registrations.find? (fun r => r.user == upd.user && r.event == ev.oid)
          with _ | reg
        · simp [confirmRegistration, hm, he2, hev, hr]
        · cases ht : env.regSaveThrows <;>
            simp [confirmRegistration, hm, he2, hev, hr, ht]

/-- Without a registration-save throw the confirmation step reports no
escaped error. -/
lemma confirmRegistration_no_throw (db : DB) (env : Env) (upd : Invoice)
    (h : env.regSaveThrows = false) : (confirmRegistration db env upd).1 = false := by
  rcases hm : upd.metadata.eventName with _ | en
  · simp [confirmRegistration, hm]
  · by_cases he : (en == "") = true
    · simp [confirmRegistration, hm, he]
    · have he2 : (en == "") = false := by simpa using he
      rcases hev : db.events.find? (fun e => e.name == en) with _ | ev
      · simp [confirmRegistration, hm, he2, hev]
      · rcases hr : db.registrations.find? (fun r => r.user == upd.user && r.event == ev.oid)
          with _ | reg
        · simp [confirmRegistration, hm, he2, hev, hr]
        · simp [confirmRegistration, hm, he2, hev, hr, h]

/-- With the confirmation path active, a registration-save throw escapes the
step and leaves the store as it was. -/
lemma confirmRegistration_throws (db : DB) (env : Env) (upd : Invoice) (en : String)
    (ev : EventRec) (reg : EventReg)
    (h1 : upd.metadata.eventName = some en) (h2 : (en == "") = false)
    (h3 : db.events.find? (fun e => e.name == en) = some ev)
    (h4 : db.registrations.find? (fun r => r.user == upd.user && r.event == ev.oid) = some reg)
    (h5 : env.regSaveThrows = true) :
    confirmRegistration db env upd = (true, db) := by
  simp [confirmRegistration, h1, h2, h3, h4, h5]

/-- Reduction of the fresh path once a candidate is selected, the `paidAt`
Date cast succeeds and the unique index raises no conflict: the invoice is
saved and only the registration-confirmation outcome decides the reported
result. -/
lemma verifyPaymentFresh_commit_reduction (db : DB) (env : Env) (tx uid : String)
    (hint : Option String) (receipt : Receipt) (cand : Invoice)
    (hc : selectCandidate db uid receipt.amount hint = some cand)
    (hcast : saveCastFails (commitInvoice env tx receipt cand) = false)
    (hnoconf : saveConflict db cand tx = false) :
    verifyPaymentFresh db env tx uid hint receipt =
      (match confirmRegistration (saveInvoice db (commitInvoice env tx receipt cand)) env
          (commitInvoice env tx receipt cand) with
       | (true, db2) =>
         ({ success := false, message := "registration save failed", invoice := none }, db2)
       | (false, db2) =>
         ({ success := true, message := "Payment verified successfully",
            invoice := some (commitInvoice env tx receipt cand) }, db2)) := by
  simp [verifyPaymentFresh, hc, hcast, hnoconf, notifyStep_eq]

/-- `commitInvoice` reads only `parseDate` from the environment, so it is
unaffected by the notification outcome flag. -/
lemma commitInvoice_notify (env : Env) (b : Bool) (tx : String) (receipt : Receipt)
    (cand : Invoice) :
    commitInvoice { env with notifyThrows := b } tx receipt cand =
      commitInvoice env tx receipt cand := by
  simp [commitInvoice, jsNewDate]

/-- `confirmRegistration` reads only `regSaveThrows` from the environment,
so it is unaffected by the notification outcome flag. -/
lemma confirmRegistration_notify (db : DB) (env : Env) (b : Bool) (upd : Invoice) :
    confirmRegistration db { env with notifyThrows := b } upd =
      confirmRegistration db env upd := by
  rcases hm : upd.metadata.eventName with _ | en
  · simp [confirmRegistration, hm]
  · by_cases he : (en == "") = true
    · simp [confirmRegistration, hm, he]
    · have he2 : (en == "") = false := by simpa using he
      rcases hev : db.events.find? (fun e => e.name == en) with _ | ev
      · simp [confirmRegistration, hm, he2, hev]
      · rcases hr : db.registrations.find? (fun r => r.user == upd.user && r.event == ev.oid)
          with _ | reg
        · simp [confirmRegistration, hm, he2, hev, hr]
        · cases ht : env.regSaveThrows <;>
            simp [confirmRegistration, hm, he2, hev, hr, ht]

/-- Splitting a five-part colon-joined string with colon-free parts recovers
exactly the five parts. -/
lemma splitColon_five (a b c d e : String)
    (ha : ':' ∉ a.data) (hb : ':' ∉ b.data) (hc : ':' ∉ c.data) (hd : ':' ∉ d.data)
    (he : ':' ∉ e.data) :
    splitColon (a ++ ":" ++ b ++ ":" ++ c ++ ":" ++ d ++ ":" ++ e) = [a, b, c, d, e] := by
  have hdata : (a ++ ":" ++ b ++ ":" ++ c ++ ":" ++ d ++ ":" ++ e).data =
      [':'].intercalate [a.data, b.data, c.data, d.data, e.data] := by
    simp [String.data_append, List.intercalate, List.intersperse]
  rw [splitColon, hdata,
    List.splitOn_intercalate [a.data, b.data, c.data, d.data, e.data] ':' ?hx ?hls]
  · rfl
  case hx =>
    intro l hl
    simp only [List.mem_cons, List.not_mem_nil, or_false] at hl
    rcases hl with rfl | rfl | rfl | rfl | rfl
    · exact ha
    · exact hb
    · exact hc
    · exact hd
    · exact he
  case hls => simp

/-- Reduction of `verifyTicketReference` once the reference decodes and
splits into exactly five parts. -/
lemma verifyTicketReference_parts (db : DB) (env : Env) (reference : String)
    (iid tx ts rnd sig : String)
    (hsplit : splitColon (env.b64dec reference) = [iid, tx, ts, rnd, sig]) :
    verifyTicketReference db env reference =
      (if sig ≠ env.hmac env.secret (iid ++ ":" ++ tx ++ ":" ++ ts ++ ":" ++ rnd) then
        Except.error "Invalid signature - possible fraud"
      else
        match db.invoices.find? (fun i => i.invoiceId == iid && i.transactionId == some tx &&
            decide (i.status = InvStatus.paid)) with
        | none => Except.error "Invoice not found or not paid"
        | some invoice =>
          Except.ok
            { reference := reference, invoiceId := iid, transactionId := tx,
              userId := invoice.user,
              eventName := jsOrDefault invoice.metadata.eventName "Event",
              amount := invoice.amount,
              status := determineTicketStatus env invoice (regLookup db invoice),
              createdAt :=
                (match jsParseInt ts with
                 | some t => JsDate.valid t
                 | none => JsDate.invalid),
              signature := sig }) := by
  rw [verifyTicketReference, hsplit]

/-! Claim theorems. -/

/-- C10: payment-method inference is a pure function of the transaction id:
after trimming and upper-casing, ids with literal prefix `FT` route to
`cbe`, ids with prefix `CFT` or `DFT` route to `boa`, and every other id
defaults to `telebirr`. -/
theorem c10_detect_payment_method (tid : String) :
    (jsStartsWith (jsToUpper (jsTrim tid)) "FT" = true → detectPaymentMethod tid = "cbe") ∧
    ((jsStartsWith (jsToUpper (jsTrim tid)) "CFT" = true ∨
        jsStartsWith (jsToUpper (jsTrim tid)) "DFT" = true) →
      detectPaymentMethod tid = "boa") ∧
    (jsStartsWith (jsToUpper (jsTrim tid)) "FT" = false ∧
      jsStartsWith (jsToUpper (jsTrim tid)) "CFT" = false ∧
      jsStartsWith (jsToUpper (jsTrim tid)) "DFT" = false →
      detectPaymentMethod tid = "telebirr") := by
  refine ⟨fun h => ?_, fun h => ?_, fun h => ?_⟩
  · simp [detectPaymentMethod, h]
  · have hft : jsStartsWith (jsToUpper (jsTrim tid)) "FT" = false := not_ft_of_cft_dft _ h
    rcases h with h | h <;> simp [detectPaymentMethod, hft, h]
  · obtain ⟨h1, h2, h3⟩ := h
    simp [detectPaymentMethod, h1, h2, h3]

/-- C10 witness: concrete ids hit each of the three routes. -/
theorem c10_witness :
    detectPaymentMethod " ft409tx " = "cbe" ∧ detectPaymentMethod "cft77" = "boa" ∧
    detectPaymentMethod "CL69OU8FEN" = "telebirr" :=
  ⟨(c10_detect_payment_method " ft409tx ").1 (by decide),
   (c10_detect_payment_method "cft77").2.1 (Or.inl (by decide)),
   (c10_detect_payment_method "CL69OU8FEN").2.2 ⟨by decide, by decide, by decide⟩⟩

/-- C6: ticket status is a pure function of the current invoice and
registration with the precedence `used` over `expired` over `valid`: a
checked-in registration always yields `used` (even after the event time); an
unchecked ticket whose event time parses and lies in the past yields
`expired`; an unchecked ticket with no past event time yields `valid`. -/
theorem c6_ticket_status_derivation (env : Env) (inv : Invoice) (reg : Option EventReg) :
    (checkedInB reg = true → determineTicketStatus env inv reg = TicketStatus.used) ∧
    (checkedInB reg = false →
      ∀ t et, inv.metadata.time = some t → t ≠ "" → env.parseDate t = some et →
        et < env.now → determineTicketStatus env inv reg = TicketStatus.expired) ∧
    (checkedInB reg = false →
      (∀ t, inv.metadata.time = some t → t ≠ "" →
        ∀ et, env.parseDate t = some et → ¬ et < env.now) →
      determineTicketStatus env inv reg = TicketStatus.valid) := by
  refine ⟨fun h => ?_, fun h t et ht hne hp hlt => ?_, fun h hq => ?_⟩
  · simp [determineTicketStatus, h]
  · have hne2 : (t == "") = false := by simpa using hne
    simp [determineTicketStatus, h, ht, hne2, hp, hlt]
  · rw [determineTicketStatus, h]
    simp only [Bool.false_eq_true, if_false]
    match hmt : inv.metadata.time with
    | none => rfl
    | some t =>
      by_cases hne : t = ""
      · simp [hne]
      · have hne2 : (t == "") = false := by simpa using hne
        simp only [hne2, Bool.false_eq_true, if_false]
        match hpd : env.parseDate t with
        | none => rfl
        | some et =>
          have := hq t hmt hne et hpd
          simp [this]

/-- C6 witness: a checked-in registration after the event time reports
`used`; the same invoice unchecked reports `expired`. -/
theorem c6_witness :
    determineTicketStatus
      { parseDate := fun s => if s == "2020-01-01" then some 100 else none, now := 200,
        secret := "k", hmac := fun _ _ => "", b64enc := fun s => s, b64dec := fun s => s,
        randomHex := "", fmtDate := fun _ => "", fmtAmt := fun _ => "",
        resendThrows := false, notifyThrows := false, regSaveThrows := false }
      { oid := 1, invoiceId := "INV-1", user := "u1", event := none, amount := 500,
        status := InvStatus.paid, transactionId := some "FT1", paidAt := none,
        receiptData := none,
        metadata := { eventName := some "Trail Ride", place := none, time := some "2020-01-01" },
        createdAt := 0 }
      (some { oid := 7, user := "u1", event := "e1", status := RegStatus.confirmed,
              checkedIn := true, checkedInAt := some 150 }) = TicketStatus.used ∧
    determineTicketStatus
      { parseDate := fun s => if s == "2020-01-01" then some 100 else none, now := 200,
        secret := "k", hmac := fun _ _ => "", b64enc := fun s => s, b64dec := fun s => s,
        randomHex := "", fmtDate := fun _ => "", fmtAmt := fun _ => "",
        resendThrows := false, notifyThrows := false, regSaveThrows := false }
      { oid := 1, invoiceId := "INV-1", user := "u1", event := none, amount := 500,
        status := InvStatus.paid, transactionId := some "FT1", paidAt := none,
        receiptData := none,
        metadata := { eventName := some "Trail Ride", place := none, time := some "2020-01-01" },
        createdAt := 0 }
      (some { oid := 7, user := "u1", event := "e1", status := RegStatus.confirmed,
              checkedIn := false, checkedInAt := none }) = TicketStatus.expired :=
  ⟨(c6_ticket_status_derivation _ _ _).1 (by decide),
   (c6_ticket_status_derivation _ _ _).2.1 (by decide) "2020-01-01" 100 (by decide)
     (by decide) (by decide) (by decide)⟩

/-- C9 counterexample: a telebirr receipt document whose amount field reads
`"0.00 ETB"` (non-positive after stripping) makes `verifyTransaction` throw
the generic failure — it does not yield a `Receipt` with status `invalid`,
and in particular yields no `Receipt` at all. -/
theorem c9_claim_counterexample :
    telebirrVerifyOutcome "TX1" "Sender" "Receiver" "0.00 ETB" "2024-01-01" =
      Except.error
        "Failed to verify transaction. Please check the transaction number and try again." ∧
    ∀ r : TelebirrReceipt,
      telebirrVerifyOutcome "TX1" "Sender" "Receiver" "0.00 ETB" "2024-01-01" ≠
        Except.ok r := by
  have hparse : parseFloatNum (stripNonNumeric "0.00 ETB") = some 0 := by
    have h1 : parseFloatSplit (stripNonNumeric "0.00 ETB").data =
        some (['0'], ['0', '0']) := by decide
    rw [parseFloatNum, h1]
    norm_num [digitsVal]
  have h : telebirrVerifyOutcome "TX1" "Sender" "Receiver" "0.00 ETB" "2024-01-01" =
      Except.error
        "Failed to verify transaction. Please check the transaction number and try again." := by
    rw [telebirrVerifyOutcome, telebirrFinishParse, hparse]
    simp
  exact ⟨h, fun r hr => by rw [h] at hr; exact Except.noConfusion hr⟩

/-- C9 amended: a non-positive or unparsable amount makes the telebirr
provider throw `"Could not parse amount from receipt"`, surfaced by its
catch block as the generic verification failure — not a `Receipt` with
status `invalid`; every receipt either provider does return has status
`valid`; and the CBE provider even returns a status-`valid` receipt with
amount `0` when the document shows a zero transferred amount. -/
theorem c9_amended_non_positive_amounts :
    (∀ tx sn rn amtS dateS,
      (parseFloatNum (stripNonNumeric amtS) = none ∨
        parseFloatNum (stripNonNumeric amtS) = some 0) →
      telebirrVerifyOutcome tx sn rn amtS dateS =
        Except.error
          "Failed to verify transaction. Please check the transaction number and try again.") ∧
    (∀ tx sn rn amtS dateS r,
      telebirrVerifyOutcome tx sn rn amtS dateS = Except.ok r →
        r.status = RcptStatus.valid) ∧
    (∀ tx txt payer dateS nowIso r,
      cbeVerifyOutcome tx txt payer dateS nowIso = Except.ok r →
        r.status = RcptStatus.valid) ∧
    (∀ tx payer dateS nowIso, ∃ r,
      cbeVerifyOutcome tx "Transferred Amount 0.00 ETB" payer dateS nowIso = Except.ok r ∧
        r.status = RcptStatus.valid ∧ r.amount = some 0) := by
  refine ⟨fun tx sn rn amtS dateS h => ?_, fun tx sn rn amtS dateS r h => ?_,
    fun tx txt payer dateS nowIso r h => ?_, fun tx payer dateS nowIso => ?_⟩
  · rcases h with h | h <;>
    · rw [telebirrVerifyOutcome, telebirrFinishParse, h]
      simp
  · rw [telebirrVerifyOutcome] at h
    rcases hfin : telebirrFinishParse tx sn rn amtS dateS with e | r2
    · simp only [hfin] at h
      split at h <;> exact Except.noConfusion h
    · simp only [hfin] at h
      injection h with hr
      rw [telebirrFinishParse] at hfin
      rcases hp : parseFloatNum (stripNonNumeric amtS) with _ | a
      · simp only [hp] at hfin
        exact Except.noConfusion hfin
      · simp only [hp] at hfin
        split at hfin
        · exact Except.noConfusion hfin
        · injection hfin with h2
          rw [← hr, ← h2]
  · rw [cbeVerifyOutcome] at h
    rcases hp : verifyCBEParse tx txt payer dateS nowIso with e | r2
    · simp only [hp] at h
      exact Except.noConfusion h
    · simp only [hp] at h
      injection h with hr
      rw [verifyCBEParse.eq_def] at hp
      rcases hs : cbeScanAmount txt.data with _ | cap
      · rw [hs] at hp
        exact Except.noConfusion hp
      · rw [hs] at hp
        injection hp with h2
        rw [← hr, ← h2]
  · have hscan : cbeScanAmount "Transferred Amount 0.00 ETB".data =
        some ['0', '.', '0', '0'] := by decide
    have hval : parseFloatNum (String.mk (['0', '.', '0', '0'].filter (fun c => c ≠ ','))) =
        some 0 := by
      have h1 : parseFloatSplit (String.mk (['0', '.', '0', '0'].filter (fun c => c ≠ ','))).data =
          some (['0'], ['0', '0']) := by decide
      rw [parseFloatNum, h1]
      norm_num [digitsVal]
    refine ⟨{ transactionId := tx,
              senderName := (match payer with | some p => p | none => "Unknown"),
              receiverName := none,
              amount := parseFloatNum (String.mk (['0', '.', '0', '0'].filter (fun c => c ≠ ','))),
              date := (match dateS with | some d => d | none => nowIso),
              status := RcptStatus.valid }, ?_, rfl, hval⟩
    simp only [cbeVerifyOutcome, verifyCBEParse, hscan]

/-- C9 witness: the amended behaviour at the concrete amount string
`"0 ETB"` of an unparsable document and at the zero-amount CBE document. -/
theorem c9_witness :
    telebirrVerifyOutcome "TX1" "S" "R" "birr" "2024" =
      Except.error
        "Failed to verify transaction. Please check the transaction number and try again." ∧
    ∃ r, cbeVerifyOutcome "FT1" "Transferred Amount 0.00 ETB" none none "now" =
      Except.ok r ∧ r.status = RcptStatus.valid ∧ r.amount = some 0 :=
  ⟨c9_amended_non_positive_amounts.1 "TX1" "S" "R" "birr" "2024" (Or.inl (by decide)),
   c9_amended_non_positive_amounts.2.2.2 "FT1" none none "now"⟩

/-- C3: candidate selection in `verifyPayment` only ever picks a pending
invoice of the user with amount at most the receipt amount; with a (truthy)
event hint it picks a most-recently-created pending invoice matching the
hint when one exists, falls back to a most-recently-created pending invoice
of the user when none does, runs the same fallback without a hint, and finds
a candidate whenever the user has any pending invoice within the amount. -/
theorem c3_candidate_selection (db : DB) (uid : String) (amt : ℚ) (hint : Option String) :
    (∀ i, selectCandidate db uid amt hint = some i →
      i.status = InvStatus.pending ∧ i.user = uid ∧ i.amount ≤ amt) ∧
    (∀ en i, hint = some en → en ≠ "" →
      (∃ j ∈ db.invoices, pendingFilterHint uid en amt j = true) →
      selectCandidate db uid amt hint = some i →
      i.metadata.eventName = some en ∧
        ∀ j ∈ db.invoices, pendingFilterHint uid en amt j = true →
          j.createdAt ≤ i.createdAt) ∧
    (∀ en i, hint = some en → en ≠ "" →
      (∀ j ∈ db.invoices, pendingFilterHint uid en amt j = false) →
      selectCandidate db uid amt hint = some i →
      ∀ j ∈ db.invoices, pendingFilterBase uid amt j = true → j.createdAt ≤ i.createdAt) ∧
    (∀ i, hint = none → selectCandidate db uid amt hint = some i →
      ∀ j ∈ db.invoices, pendingFilterBase uid amt j = true → j.createdAt ≤ i.createdAt) ∧
    ((∃ j ∈ db.invoices, pendingFilterBase uid amt j = true) →
      ∃ i, selectCandidate db uid amt hint = some i) := by
  have hhint : ∀ en c, hintCandidate db uid amt (some en) = some c →
      pendingFilterHint uid en amt c = true := by
    intro en c hc
    rw [hintCandidate] at hc
    by_cases hne : (en == "") = true
    · rw [if_pos hne] at hc
      exact Option.noConfusion hc
    · rw [if_neg hne] at hc
      exact (findLatestSorted_spec _ _ _ hc).1
  refine ⟨fun i h => ?_, fun en i hh hne hex h => ?_, fun en i hh hne hnone h => ?_,
    fun i hh h => ?_, fun hex => ?_⟩
  · -- only pending invoices of the user within the amount are ever picked
    rcases hfc : hintCandidate db uid amt hint with _ | c
    · simp only [selectCandidate, hfc] at h
      obtain ⟨hp, -, -⟩ := findLatestSorted_spec _ _ _ h
      obtain ⟨h1, h2, h3⟩ := (pendingFilterBase_iff uid amt i).mp hp
      exact ⟨h3, h1, h2⟩
    · simp only [selectCandidate, hfc] at h
      injection h with e
      rcases hint with _ | en
      · rw [hintCandidate] at hfc
        exact Option.noConfusion hfc
      · obtain ⟨h1, h2, h3, h4⟩ := (pendingFilterHint_iff uid en amt c).mp (hhint en c hfc)
        rw [← e]
        exact ⟨h4, h1, h3⟩
  · -- hinted selection with at least one hint match
    subst hh
    have hne2 : (en == "") = false := by simpa using hne
    rcases hfc : hintCandidate db uid amt (some en) with _ | c
    · rw [hintCandidate, hne2] at hfc
      simp only [Bool.false_eq_true, if_false] at hfc
      obtain ⟨j, hj, hpj⟩ := hex
      have := findLatestSorted_none _ _ hfc j hj
      rw [hpj] at this
      exact Bool.noConfusion this
    · simp only [selectCandidate, hfc] at h
      injection h with e
      have hfind : findLatestSorted (pendingFilterHint uid en amt) db.invoices = some c := by
        rw [hintCandidate, hne2] at hfc
        simpa using hfc
      obtain ⟨hp, -, hmax⟩ := findLatestSorted_spec _ _ _ hfind
      obtain ⟨-, h2, -, -⟩ := (pendingFilterHint_iff uid en amt c).mp hp
      rw [← e]
      exact ⟨h2, fun j hj hpj => hmax j hj hpj⟩
  · -- hinted selection with no hint match falls back to the base query
    subst hh
    rcases hfc : hintCandidate db uid amt (some en) with _ | c
    · simp only [selectCandidate, hfc] at h
      exact fun j hj hpj => (findLatestSorted_spec _ _ _ h).2.2 j hj hpj
    · have hpc := hhint en c hfc
      have hmem : c ∈ db.invoices := by
        have hne2 : (en == "") = false := by simpa using hne
        rw [hintCandidate, hne2] at hfc
        simp only [Bool.false_eq_true, if_false] at hfc
        exact (findLatestSorted_spec _ _ _ hfc).2.1
      have := hnone c hmem
      rw [hpc] at this
      exact Bool.noConfusion this
  · -- no hint: the base query alone decides
    subst hh
    have hfc : hintCandidate db uid amt none = none := rfl
    simp only [selectCandidate, hfc] at h
    exact fun j hj hpj => (findLatestSorted_spec _ _ _ h).2.2 j hj hpj
  · -- a pending invoice within the amount guarantees a candidate
    rcases hfc : hintCandidate db uid amt hint with _ | c
    · rcases hres : findLatestSorted (pendingFilterBase uid amt) db.invoices with _ | i
      · obtain ⟨j, hj, hpj⟩ := hex
        have := findLatestSorted_none _ _ hres j hj
        rw [hpj] at this
        exact Bool.noConfusion this
      · exact ⟨i, by simp only [selectCandidate, hfc]; exact hres⟩
    · exact ⟨c, by simp only [selectCandidate, hfc]⟩

/-- Concrete pending invoice used by the candidate-selection witness. -/
def c3invA : Invoice :=
  { oid := 1, invoiceId := "INV-A", user := "u1", event := none, amount := 300,
    status := InvStatus.pending, transactionId := none, paidAt := none,
    receiptData := none,
    metadata := { eventName := some "Ride", place := none, time := none },
    createdAt := 1 }

/-- Concrete store used by the candidate-selection witness: one affordable
pending invoice for the hinted event and one pending invoice that exceeds
the paid amount. -/
def c3db : DB :=
  { invoices := [c3invA,
      { oid := 2, invoiceId := "INV-C", user := "u1", event := none, amount := 800,
        status := InvStatus.pending, transactionId := none, paidAt := none,
        receiptData := none,
        metadata := { eventName := some "Ride", place := none, time := none },
        createdAt := 9 }],
    registrations := [], events := [], users := [] }

/-- C3 witness: with receipt amount 500 and hint `Ride`, selection picks the
affordable hinted invoice, and it is most recent among the hint matches. -/
theorem c3_witness :
    c3invA.metadata.eventName = some "Ride" ∧
    ∀ j ∈ c3db.invoices, pendingFilterHint "u1" "Ride" 500 j = true →
      j.createdAt ≤ c3invA.createdAt :=
  (c3_candidate_selection c3db "u1" 500 (some "Ride")).2.1 "Ride" c3invA rfl
    (by decide) ⟨c3invA, by decide, by decide⟩ (by decide)

/-- Concrete paid invoice used by the duplicate-submission theorems. -/
def c1ex : Invoice :=
  { oid := 1, invoiceId := "INV-1", user := "u1", event := none, amount := 500,
    status := InvStatus.paid, transactionId := some "TX1",
    paidAt := some (JsDate.valid 10), receiptData := none,
    metadata := { eventName := some "Trail Ride", place := none, time := none },
    createdAt := 0 }

/-- Concrete store for the duplicate-submission theorems: the paid invoice
and its owner, who has a Telegram chat route. -/
def c1db : DB :=
  { invoices := [c1ex], registrations := [], events := [],
    users := [{ oid := "u1",
                telegramData := some { chatId := some "chat1", tgid := none } }] }

/-- Environment in which the QR resend throws. -/
def c1envBad : Env :=
  { parseDate := fun _ => none, now := 0, secret := "k", hmac := fun _ _ => "",
    b64enc := fun s => s, b64dec := fun s => s, randomHex := "", fmtDate := fun _ => "D",
    fmtAmt := fun _ => "A", resendThrows := true, notifyThrows := false,
    regSaveThrows := false }

/-- Environment in which every side effect succeeds. -/
def c1envOk : Env :=
  { parseDate := fun _ => none, now := 0, secret := "k", hmac := fun _ _ => "",
    b64enc := fun s => s, b64dec := fun s => s, randomHex := "", fmtDate := fun _ => "D",
    fmtAmt := fun _ => "A", resendThrows := false, notifyThrows := false,
    regSaveThrows := false }

/-- Concrete valid receipt re-submitting the consumed transaction id. -/
def c1receipt : Receipt :=
  { transactionId := "TX1", senderName := "S", receiverName := none, amount := 500,
    date := "2024-01-01", status := RcptStatus.valid }

/-- C1 counterexample: when the QR resend throws, the duplicate-submission
path reports failure (`success = false`), refuting the claim that a repeat
submission by the owner always "reports success". -/
theorem c1_claim_counterexample :
    (c1db.invoices.find? (paidWithTx "TX1") = some c1ex ∧ c1ex.user = "u1") ∧
    (verifyPayment c1db c1envBad "TX1" "u1" none (Except.ok c1receipt)).1.success = false := by
  decide

/-- C1 amended: when a paid invoice of the same user already bears the
transaction id, `verifyPayment` writes nothing (so no second invoice ever
becomes paid with that id), reports the existing invoice's data, and reports
success exactly unless the QR resend throws. -/
theorem c1_duplicate_same_user (db : DB) (env : Env) (tx uid : String)
    (hint : Option String) (receipt : Receipt) (ex : Invoice)
    (hs : receipt.status = RcptStatus.valid)
    (hfind : db.invoices.find? (paidWithTx tx) = some ex)
    (huser : ex.user = uid) :
    (verifyPayment db env tx uid hint (Except.ok receipt)).2 = db ∧
    (verifyPayment db env tx uid hint (Except.ok receipt)).1.invoice = some ex ∧
    (env.resendThrows = false →
      (verifyPayment db env tx uid hint (Except.ok receipt)).1.success = true) ∧
    ((verifyPayment db env tx uid hint (Except.ok receipt)).1.success = false →
      env.resendThrows = true) := by
  have hbeq : (ex.user == uid) = true := by simpa using huser
  have hdup : verifyPayment db env tx uid hint (Except.ok receipt) =
      verifyPaymentDup db env ex := by
    simp [verifyPayment, hs, hfind, hbeq]
  rw [hdup]
  rcases hu : db.users.find? (fun u => u.oid == ex.user) with _ | u
  · simp [verifyPaymentDup, hu]
  · rcases htd : u.telegramData with _ | td
    · simp [verifyPaymentDup, hu, htd]
    · rcases hc : jsChatId td with _ | c
      · simp [verifyPaymentDup, hu, htd, hc]
      · cases hrt : env.resendThrows <;> simp [verifyPaymentDup, hu, htd, hc, hrt]

/-- C1 witness: on the concrete duplicate submission with a working resend,
the call reports success, carries the existing invoice, and writes nothing. -/
theorem c1_witness :
    (verifyPayment c1db c1envOk "TX1" "u1" none (Except.ok c1receipt)).2 = c1db ∧
    (verifyPayment c1db c1envOk "TX1" "u1" none (Except.ok c1receipt)).1.invoice = some c1ex ∧
    (verifyPayment c1db c1envOk "TX1" "u1" none (Except.ok c1receipt)).1.success = true := by
  obtain ⟨h1, h2, h3, -⟩ :=
    c1_duplicate_same_user c1db c1envOk "TX1" "u1" none c1receipt c1ex
      (by decide) (by decide) (by decide)
  exact ⟨h1, h2, h3 (by decide)⟩

/-- C2: a reconciliation attempt by a different user on a consumed
transaction id is rejected — the unique sparse index on `transactionId`
makes the commit fail — and the store is left unchanged, so no invoice of
the second user transitions to `paid`. -/
theorem c2_conflict_other_user (db : DB) (env : Env) (tx uid : String)
    (hint : Option String) (receipt : Receipt) (ex : Invoice)
    (hwf : db.invoices.Pairwise (fun a b => a.oid ≠ b.oid))
    (hs : receipt.status = RcptStatus.valid)
    (hfind : db.invoices.find? (paidWithTx tx) = some ex)
    (huser : ex.user ≠ uid) :
    (verifyPayment db env tx uid hint (Except.ok receipt)).1.success = false ∧
    (verifyPayment db env tx uid hint (Except.ok receipt)).2 = db := by
  have hbeq : (ex.user == uid) = false := by simpa using huser
  have hfresh : verifyPayment db env tx uid hint (Except.ok receipt) =
      verifyPaymentFresh db env tx uid hint receipt := by
    simp [verifyPayment, hs, hfind, hbeq]
  rw [hfresh]
  have hexmem : ex ∈ db.invoices := List.mem_of_find?_eq_some hfind
  have hexpred : paidWithTx tx ex = true := List.find?_some hfind
  have hextx : ex.transactionId = some tx ∧ ex.status = InvStatus.paid := by
    simpa [paidWithTx] using hexpred
  rcases hc : selectCandidate db uid receipt.amount hint with _ | cand
  · simp [verifyPaymentFresh, hc]
  · obtain ⟨hcm, hcp, -, -⟩ := selectCandidate_spec _ _ _ _ _ hc
    have hnev : cand ≠ ex := by
      intro he
      rw [he, hextx.2] at hcp
      exact InvStatus.noConfusion hcp
    have hne : ex.oid ≠ cand.oid := pairwise_oid_ne hwf hexmem hcm (fun he => hnev he.symm)
    have hconf : saveConflict db cand tx = true := by
      rw [saveConflict, List.any_eq_true]
      refine ⟨ex, hexmem, ?_⟩
      simp [hne, hextx.1]
    by_cases hcast : saveCastFails (commitInvoice env tx receipt cand) = true
    · simp [verifyPaymentFresh, hc, hcast]
    · have hcast2 : saveCastFails (commitInvoice env tx receipt cand) = false := by
        simpa using hcast
      simp [verifyPaymentFresh, hc, hcast2, hconf]

/-- C2 witness: user `u2` submitting `u1`'s consumed transaction id is
rejected with no state change even though `u2` has an affordable pending
invoice. -/
theorem c2_witness :
    (verifyPayment
      { invoices := [c1ex,
          { oid := 2, invoiceId := "INV-2", user := "u2", event := none, amount := 300,
            status := InvStatus.pending, transactionId := none, paidAt := none,
            receiptData := none,
            metadata := { eventName := some "Trail Ride", place := none, time := none },
            createdAt := 3 }],
        registrations := [], events := [], users := [] }
      c1envOk "TX1" "u2" none (Except.ok c1receipt)).1.success = false ∧
    (verifyPayment
      { invoices := [c1ex,
          { oid := 2, invoiceId := "INV-2", user := "u2", event := none, amount := 300,
            status := InvStatus.pending, transactionId := none, paidAt := none,
            receiptData := none,
            metadata := { eventName := some "Trail Ride", place := none, time := none },
            createdAt := 3 }],
        registrations := [], events := [], users := [] }
      c1envOk "TX1" "u2" none (Except.ok c1receipt)).2 =
      { invoices := [c1ex,
          { oid := 2, invoiceId := "INV-2", user := "u2", event := none, amount := 300,
            status := InvStatus.pending, transactionId := none, paidAt := none,
            receiptData := none,
            metadata := { eventName := some "Trail Ride", place := none, time := none },
            createdAt := 3 }],
        registrations := [], events := [], users := [] } :=
  c2_conflict_other_user _ c1envOk "TX1" "u2" none c1receipt c1ex
    (by decide) (by decide) (by decide) (by decide)

/-- C4 amended: on a fresh reconciliation whose receipt date casts to a
valid `Date`, the commit step sets exactly the selected invoice's status to
`paid`, its `transactionId` to the receipt's transaction id, its `paidAt`
to `new Date(receipt.date)` and its `receiptData` from the receipt, the
receiver falling back to `"Reboot Adventures"` when the receipt's receiver
is absent, empty or `"Unknown"`, every other invoice carried over
unchanged.  There is no fallback to the current time for an unparsable
date: the `paidAt` Date cast makes the save reject, the reconciliation
reports failure and nothing is persisted. -/
theorem c4_commit_fields (db : DB) (env : Env) (tx uid : String) (hint : Option String)
    (receipt : Receipt) (cand : Invoice)
    (hs : receipt.status = RcptStatus.valid)
    (hfind : db.invoices.find? (paidWithTx tx) = none)
    (hc : selectCandidate db uid receipt.amount hint = some cand)
    (hnoconf : saveConflict db cand tx = false) :
    (∀ dt, env.parseDate receipt.date = some dt →
      (verifyPayment db env tx uid hint (Except.ok receipt)).2.invoices =
        db.invoices.map (fun i =>
          if i.oid == cand.oid then commitInvoice env tx receipt cand else i) ∧
      (commitInvoice env tx receipt cand).status = InvStatus.paid ∧
      (commitInvoice env tx receipt cand).transactionId = some tx ∧
      (commitInvoice env tx receipt cand).paidAt = some (JsDate.valid dt) ∧
      (commitInvoice env tx receipt cand).receiptData = some
        { senderName := receipt.senderName, confirmedAmount := receipt.amount,
          date := receipt.date, receiver := receiverFrom receipt.receiverName } ∧
      ∀ i ∈ db.invoices, (i.oid == cand.oid) = false →
        i ∈ (verifyPayment db env tx uid hint (Except.ok receipt)).2.invoices) ∧
    (env.parseDate receipt.date = none →
      (verifyPayment db env tx uid hint (Except.ok receipt)).1.success = false ∧
      (verifyPayment db env tx uid hint (Except.ok receipt)).2 = db) := by
  have hfresh : verifyPayment db env tx uid hint (Except.ok receipt) =
      verifyPaymentFresh db env tx uid hint receipt := by
    simp [verifyPayment, hs, hfind]
  refine ⟨fun dt hdate => ?_, fun hdate => ?_⟩
  · have hcast : saveCastFails (commitInvoice env tx receipt cand) = false := by
      simp [saveCastFails, commitInvoice, jsNewDate, hdate]
    have hinv : (verifyPayment db env tx uid hint (Except.ok receipt)).2.invoices =
        db.invoices.map (fun i =>
          if i.oid == cand.oid then commitInvoice env tx receipt cand else i) := by
      rw [hfresh,
        verifyPaymentFresh_commit_reduction db env tx uid hint receipt cand hc hcast hnoconf]
      rcases hcr : confirmRegistration (saveInvoice db (commitInvoice env tx receipt cand)) env
          (commitInvoice env tx receipt cand) with ⟨thrw, db2⟩
      have hinv2 : db2.invoices =
          (saveInvoice db (commitInvoice env tx receipt cand)).invoices := by
        have h2 := confirmRegistration_invoices
          (saveInvoice db (commitInvoice env tx receipt cand)) env
          (commitInvoice env tx receipt cand)
        rw [hcr] at h2
        exact h2
      cases thrw <;> simp only [hcr] <;> rw [hinv2] <;> rfl
    have hpd : (commitInvoice env tx receipt cand).paidAt = some (JsDate.valid dt) := by
      simp [commitInvoice, jsNewDate, hdate]
    refine ⟨hinv, rfl, rfl, hpd, rfl, fun i hi hne => ?_⟩
    rw [hinv]
    have h3 : i =
        (fun j => if j.oid == cand.oid then commitInvoice env tx receipt cand else j) i := by
      simp [hne]
    rw [h3]
    exact List.mem_map_of_mem _ hi
  · have hcast : saveCastFails (commitInvoice env tx receipt cand) = true := by
      simp [saveCastFails, commitInvoice, jsNewDate, hdate]
    rw [hfresh]
    simp [verifyPaymentFresh, hc, hcast]

/-- Environment whose date parsing always fails, as for a free-text receipt
date the JS `Date` constructor cannot read. -/
def c4envBadDate : Env :=
  { parseDate := fun _ => none, now := 77, secret := "k", hmac := fun _ _ => "",
    b64enc := fun s => s, b64dec := fun s => s, randomHex := "", fmtDate := fun _ => "D",
    fmtAmt := fun _ => "A", resendThrows := false, notifyThrows := false,
    regSaveThrows := false }

/-- The single affordable pending invoice of the commit theorems. -/
def c4inv : Invoice :=
  { oid := 1, invoiceId := "INV-1", user := "u1", event := none, amount := 300,
    status := InvStatus.pending, transactionId := none, paidAt := none,
    receiptData := none,
    metadata := { eventName := none, place := none, time := none },
    createdAt := 0 }

/-- Store with a single affordable pending invoice, used by the commit
theorems. -/
def c4db : DB :=
  { invoices := [c4inv], registrations := [], events := [], users := [] }

/-- Environment whose date parsing succeeds, for the commit-shape witness. -/
def c4envGoodDate : Env :=
  { parseDate := fun _ => some 99, now := 77, secret := "k", hmac := fun _ _ => "",
    b64enc := fun s => s, b64dec := fun s => s, randomHex := "", fmtDate := fun _ => "D",
    fmtAmt := fun _ => "A", resendThrows := false, notifyThrows := false,
    regSaveThrows := false }

/-- Valid receipt whose date is unparsable free text. -/
def c4receipt : Receipt :=
  { transactionId := "TX9", senderName := "S", receiverName := some "Unknown", amount := 500,
    date := "on the 3rd of last month", status := RcptStatus.valid }

/-- C4 counterexample: on a receipt whose date is unparsable there is no
fallback to the current time (`now = 77`) — the `paidAt` Date cast makes
the save reject, so the reconciliation reports failure and nothing is
persisted: no invoice becomes `paid` at all, refuting the claimed
commit-with-fallback. -/
theorem c4_claim_counterexample :
    c4envBadDate.parseDate c4receipt.date = none ∧
    (verifyPayment c4db c4envBadDate "TX9" "u1" none (Except.ok c4receipt)).1.success = false ∧
    (verifyPayment c4db c4envBadDate "TX9" "u1" none (Except.ok c4receipt)).2 = c4db := by
  decide

/-- C4 witness: with a parsable receipt date the commit replaces exactly the
selected invoice, setting `paidAt` to the parsed timestamp; with the
unparsable date the same call fails with nothing persisted. -/
theorem c4_witness :
    (verifyPayment c4db c4envGoodDate "TX9" "u1" none (Except.ok c4receipt)).2.invoices =
      c4db.invoices.map (fun i =>
        if i.oid == c4inv.oid then commitInvoice c4envGoodDate "TX9" c4receipt c4inv else i) ∧
    (commitInvoice c4envGoodDate "TX9" c4receipt c4inv).transactionId = some "TX9" ∧
    (commitInvoice c4envGoodDate "TX9" c4receipt c4inv).paidAt = some (JsDate.valid 99) ∧
    (verifyPayment c4db c4envBadDate "TX9" "u1" none (Except.ok c4receipt)).1.success = false := by
  obtain ⟨h1, -, h3, h4, -, -⟩ :=
    (c4_commit_fields c4db c4envGoodDate "TX9" "u1" none c4receipt c4inv
      (by decide) (by decide) (by decide) (by decide)).1 99 (by decide)
  obtain ⟨h5, -⟩ :=
    (c4_commit_fields c4db c4envBadDate "TX9" "u1" none c4receipt c4inv
      (by decide) (by decide) (by decide) (by decide)).2 (by decide)
  exact ⟨h1, h3, h4, h5⟩

/-- C8 amended: for a reconciliation whose commit save succeeds (candidate
selected, receipt date casts to a valid `Date`, no unique-index conflict),
the notification step is genuinely best-effort — a throw there changes
neither the result nor the state — and a failure while confirming the
registration does not roll back the invoice's `paid` state, but it does
escape to the global catch and flip the reported outcome to failure (the
step has no try/catch of its own); without such a failure the call reports
success. -/
theorem c8_best_effort_side_effects (db : DB) (env : Env) (tx uid : String)
    (hint : Option String) (receipt : Receipt) (cand : Invoice) (dt : Int)
    (hs : receipt.status = RcptStatus.valid)
    (hfind : db.invoices.find? (paidWithTx tx) = none)
    (hc : selectCandidate db uid receipt.amount hint = some cand)
    (hdate : env.parseDate receipt.date = some dt)
    (hnoconf : saveConflict db cand tx = false) :
    (verifyPayment db { env with notifyThrows := true } tx uid hint (Except.ok receipt) =
      verifyPayment db { env with notifyThrows := false } tx uid hint (Except.ok receipt)) ∧
    (env.regSaveThrows = false →
      (verifyPayment db env tx uid hint (Except.ok receipt)).1.success = true) ∧
    (∀ en ev reg, cand.metadata.eventName = some en → (en == "") = false →
      db.events.find? (fun e => e.name == en) = some ev →
      db.registrations.find? (fun r => r.user == cand.user && r.event == ev.oid) = some reg →
      env.regSaveThrows = true →
      (verifyPayment db env tx uid hint (Except.ok receipt)).1.success = false ∧
      commitInvoice env tx receipt cand ∈
        (verifyPayment db env tx uid hint (Except.ok receipt)).2.invoices) := by
  have hfreshAny : ∀ env' : Env,
      verifyPayment db env' tx uid hint (Except.ok receipt) =
        verifyPaymentFresh db env' tx uid hint receipt := fun env' => by
    simp [verifyPayment, hs, hfind]
  have hcast : saveCastFails (commitInvoice env tx receipt cand) = false := by
    simp [saveCastFails, commitInvoice, jsNewDate, hdate]
  have hcastb : ∀ b : Bool,
      saveCastFails (commitInvoice { env with notifyThrows := b } tx receipt cand) = false := by
    intro b
    simp [saveCastFails, commitInvoice, jsNewDate, hdate]
  refine ⟨?_, fun hrs => ?_, fun en ev reg h1 h2 h3 h4 h5 => ?_⟩
  · rw [hfreshAny, hfreshAny,
      verifyPaymentFresh_commit_reduction db _ tx uid hint receipt cand hc (hcastb true) hnoconf,
      verifyPaymentFresh_commit_reduction db _ tx uid hint receipt cand hc (hcastb false) hnoconf]
    simp only [commitInvoice_notify, confirmRegistration_notify]
  · rw [hfreshAny,
      verifyPaymentFresh_commit_reduction db env tx uid hint receipt cand hc hcast hnoconf]
    rcases hcr : confirmRegistration (saveInvoice db (commitInvoice env tx receipt cand)) env
        (commitInvoice env tx receipt cand) with ⟨thrw, db2⟩
    have hf : thrw = false := by
      have h6 := confirmRegistration_no_throw
        (saveInvoice db (commitInvoice env tx receipt cand)) env
        (commitInvoice env tx receipt cand) hrs
      rw [hcr] at h6
      exact h6
    subst hf
    simp only [hcr]
  · have hth : confirmRegistration (saveInvoice db (commitInvoice env tx receipt cand)) env
        (commitInvoice env tx receipt cand) =
        (true, saveInvoice db (commitInvoice env tx receipt cand)) :=
      confirmRegistration_throws _ env _ en ev reg h1 h2 h3 h4 h5
    rw [hfreshAny,
      verifyPaymentFresh_commit_reduction db env tx uid hint receipt cand hc hcast hnoconf,
      hth]
    refine ⟨rfl, ?_⟩
    have hcm : cand ∈ db.invoices := (selectCandidate_spec _ _ _ _ _ hc).1
    have hfc : (fun i => if i.oid == (commitInvoice env tx receipt cand).oid
        then commitInvoice env tx receipt cand else i) cand =
        commitInvoice env tx receipt cand := by
      simp [commitInvoice]
    have hmm := List.mem_map_of_mem (fun i =>
      if i.oid == (commitInvoice env tx receipt cand).oid
      then commitInvoice env tx receipt cand else i) hcm
    rw [hfc] at hmm
    exact hmm

/-- Pending invoice naming an event, for the best-effort theorems. -/
def c8inv : Invoice :=
  { oid := 1, invoiceId := "INV-8", user := "u1", event := none, amount := 300,
    status := InvStatus.pending, transactionId := none, paidAt := none,
    receiptData := none,
    metadata := { eventName := some "Ride", place := none, time := none },
    createdAt := 0 }

/-- Registration of the invoice's owner for the named event. -/
def c8reg : EventReg :=
  { oid := 5, user := "u1", event := "e1", status := RegStatus.registered,
    checkedIn := false, checkedInAt := none }

/-- Store in which the registration-confirmation path is active. -/
def c8db : DB :=
  { invoices := [c8inv],
    registrations := [c8reg],
    events := [{ oid := "e1", name := "Ride" }],
    users := [] }

/-- Environment in which the registration save throws. -/
def c8envThrow : Env :=
  { parseDate := fun _ => some 50, now := 60, secret := "k", hmac := fun _ _ => "",
    b64enc := fun s => s, b64dec := fun s => s, randomHex := "", fmtDate := fun _ => "D",
    fmtAmt := fun _ => "A", resendThrows := false, notifyThrows := false,
    regSaveThrows := true }

/-- Valid receipt for the best-effort theorems. -/
def c8receipt : Receipt :=
  { transactionId := "TX8", senderName := "S", receiverName := some "R", amount := 500,
    date := "2024-01-01", status := RcptStatus.valid }

/-- C8 counterexample: with the commit already persisted, a throw while
confirming the registration flips the reported outcome to failure — the
invoice stays `paid`, but the claim that the primary outcome stays success
is refuted. -/
theorem c8_claim_counterexample :
    (verifyPayment c8db c8envThrow "TX8" "u1" none (Except.ok c8receipt)).1.success = false ∧
    (verifyPayment c8db c8envThrow "TX8" "u1" none
      (Except.ok c8receipt)).2.invoices.map Invoice.status = [InvStatus.paid] := by
  decide

/-- C8 witness: the amended behaviour at the concrete store — success when
the registration save does not throw, and insensitivity to the notification
outcome. -/
theorem c8_witness :
    (verifyPayment c8db { c8envThrow with regSaveThrows := false } "TX8" "u1" none
      (Except.ok c8receipt)).1.success = true ∧
    verifyPayment c8db { c8envThrow with notifyThrows := true } "TX8" "u1" none
      (Except.ok c8receipt) =
    verifyPayment c8db { c8envThrow with notifyThrows := false } "TX8" "u1" none
      (Except.ok c8receipt) := by
  obtain ⟨-, hb, -⟩ := c8_best_effort_side_effects c8db
    { c8envThrow with regSaveThrows := false } "TX8" "u1" none c8receipt c8inv 50
    (by decide) (by decide) (by decide) (by decide) (by decide)
  obtain ⟨ha, -, -⟩ := c8_best_effort_side_effects c8db c8envThrow "TX8" "u1" none
    c8receipt c8inv 50 (by decide) (by decide) (by decide) (by decide) (by decide)
  exact ⟨hb rfl, ha⟩

/-- C5: round-trip of ticket issuance and verification.  For a paid invoice
in the store, verifying the reference produced by issuing a ticket for it
passes the MAC check and recovers the invoice's `invoiceId` and
`transactionId`.  The colon-freeness hypotheses state that none of the
canonical fields contains the separator (invoice ids, transaction ids,
decimal timestamps and hex digests never do), and `hb64` states that the
URL-safe encoding is reversible. -/
theorem c5_ticket_roundtrip (db : DB) (env : Env) (inv : Invoice) (tx : String)
    (hmem : inv ∈ db.invoices) (hst : inv.status = InvStatus.paid)
    (htx : inv.transactionId = some tx)
    (hai : ':' ∉ inv.invoiceId.data) (hat : ':' ∉ tx.data)
    (hts : ':' ∉ (toString env.now).data) (har : ':' ∉ env.randomHex.data)
    (hmacfree : ':' ∉ (env.hmac env.secret
      (inv.invoiceId ++ ":" ++ tx ++ ":" ++ toString env.now ++ ":" ++ env.randomHex)).data)
    (hb64 : ∀ s, env.b64dec (env.b64enc s) = s) :
    ∃ td, verifyTicketReference db env (generateSecureReference env inv) = Except.ok td ∧
      td.invoiceId = inv.invoiceId ∧ td.transactionId = tx := by
  have hgen : generateSecureReference env inv =
      env.b64enc (inv.invoiceId ++ ":" ++ tx ++ ":" ++ toString env.now ++ ":" ++
        env.randomHex ++ ":" ++ env.hmac env.secret
          (inv.invoiceId ++ ":" ++ tx ++ ":" ++ toString env.now ++ ":" ++ env.randomHex)) := by
    simp [generateSecureReference, htx, jsTemplateOptStr]
  have hsplit : splitColon (env.b64dec (generateSecureReference env inv)) =
      [inv.invoiceId, tx, toString env.now, env.randomHex,
        env.hmac env.secret
          (inv.invoiceId ++ ":" ++ tx ++ ":" ++ toString env.now ++ ":" ++ env.randomHex)] := by
    rw [hgen, hb64]
    exact splitColon_five _ _ _ _ _ hai hat hts har hmacfree
  rw [verifyTicketReference_parts db env _ _ _ _ _ _ hsplit]
  rw [if_neg (fun h => h rfl)]
  have hex : (db.invoices.find? (fun i => i.invoiceId == inv.invoiceId &&
      i.transactionId == some tx && decide (i.status = InvStatus.paid))).isSome := by
    rw [List.find?_isSome]
    exact ⟨inv, hmem, by simp [hst, htx]⟩
  rcases hfind : db.invoices.find? (fun i => i.invoiceId == inv.invoiceId &&
      i.transactionId == some tx && decide (i.status = InvStatus.paid)) with _ | j
  · rw [hfind] at hex
    exact absurd hex (by simp)
  · rw [hfind]
    exact ⟨_, rfl, rfl, rfl⟩

/-- Environment with concrete stand-ins for the cryptographic primitives:
the MAC is a constant digest, the encoding is the identity (trivially
reversible). -/
def c5env : Env :=
  { parseDate := fun _ => none, now := 3, secret := "server-secret",
    hmac := fun _ _ => "deadbeef", b64enc := fun s => s, b64dec := fun s => s,
    randomHex := "0a1b", fmtDate := fun _ => "D", fmtAmt := fun _ => "A",
    resendThrows := false, notifyThrows := false, regSaveThrows := false }

/-- Paid invoice in the store for the round-trip witness. -/
def c5inv : Invoice :=
  { oid := 1, invoiceId := "INV-42", user := "u1", event := none, amount := 500,
    status := InvStatus.paid, transactionId := some "FT2209AB12",
    paidAt := some (JsDate.valid 5), receiptData := none,
    metadata := { eventName := some "Trail Ride", place := none, time := none },
    createdAt := 0 }

/-- C5 witness: the round-trip at a concrete paid invoice and environment. -/
theorem c5_witness :
    ∃ td, verifyTicketReference
      { invoices := [c5inv], registrations := [], events := [], users := [] }
      c5env (generateSecureReference c5env c5inv) = Except.ok td ∧
      td.invoiceId = c5inv.invoiceId ∧ td.transactionId = "FT2209AB12" :=
  c5_ticket_roundtrip
    { invoices := [c5inv], registrations := [], events := [], users := [] }
    c5env c5inv "FT2209AB12" (by decide) (by decide) (by decide) (by decide)
    (by decide) (by decide) (by decide) (by decide) (fun s => rfl)

/-- A resolved registration comes from the registration store. -/
lemma resolveRegistration_mem (db : DB) (inv : Invoice) (eid : String) (r : EventReg)
    (h : resolveRegistration db inv eid = some r) : r ∈ db.registrations := by
  rw [resolveRegistration] at h
  rcases h1 : db.registrations.find? (fun q => q.user == inv.user && q.event == eid)
      with _ | r2
  · rw [h1] at h
    exact List.mem_of_find?_eq_some h
  · rw [h1] at h
    injection h with e
    rw [← e]
    exact List.mem_of_find?_eq_some h1

/-- C7: check-in on a ticket reference succeeds only when the derived status
is `valid` — a `used` status yields the already-used failure and an
`expired` status the expired failure, both without state change — and a
successful check-in flips exactly one not-yet-checked-in registration of the
store to `checkedIn := true` with `checkedInAt := now`. -/
theorem c7_checkin_rules (db : DB) (env : Env) (ref : String) :
    (∀ td, verifyTicketReference db env ref = Except.ok td →
      (td.status = TicketStatus.used →
        markTicketUsed db env ref =
          ({ success := false, message := "Ticket has already been used" }, db)) ∧
      (td.status = TicketStatus.expired →
        markTicketUsed db env ref =
          ({ success := false, message := "This ticket has expired" }, db))) ∧
    ((markTicketUsed db env ref).1.success = true →
      (∃ td, verifyTicketReference db env ref = Except.ok td ∧
        td.status = TicketStatus.valid) ∧
      (∃ r, r ∈ db.registrations ∧ r.checkedIn = false ∧
        (markTicketUsed db env ref).2.registrations = db.registrations.map (fun q =>
          if q.oid == r.oid then { q with checkedIn := true, checkedInAt := some env.now }
          else q))) := by
  constructor
  · intro td htd
    constructor
    · intro hst
      simp [markTicketUsed, htd, hst]
    · intro hst
      simp [markTicketUsed, htd, hst]
  · intro hsucc
    rcases hv : verifyTicketReference db env ref with e | td
    · simp [markTicketUsed, hv] at hsucc
    · rcases hstatus : td.status with _ | _ | _
      · -- valid
        rcases hinv : db.invoices.find? (fun i => i.invoiceId == td.invoiceId) with _ | inv
        · simp [markTicketUsed, hv, hstatus, hinv, resolveEventId] at hsucc
        · rcases heid : resolveEventId db (some inv) with _ | eid
          · simp [markTicketUsed, hv, hstatus, hinv, heid] at hsucc
          · rcases hreg : resolveRegistration db inv eid with _ | r
            · simp [markTicketUsed, hv, hstatus, hinv, heid, hreg] at hsucc
            · cases hchk : r.checkedIn
              · have hm : markTicketUsed db env ref =
                    ({ success := true, message := "Checked in successfully!" },
                     { db with registrations := db.registrations.map (fun q =>
                         if q.oid == r.oid then
                           { q with checkedIn := true, checkedInAt := some env.now }
                         else q) }) := by
                  simp [markTicketUsed, hv, hstatus, hinv, heid, hreg, hchk]
                refine ⟨⟨td, rfl, hstatus⟩,
                  ⟨r, resolveRegistration_mem db inv eid r hreg, hchk, ?_⟩⟩
                rw [hm]
              · simp [markTicketUsed, hv, hstatus, hinv, heid, hreg, hchk] at hsucc
      · simp [markTicketUsed, hv, hstatus] at hsucc
      · simp [markTicketUsed, hv, hstatus] at hsucc

/-- Environment of the check-in witness: the decoder yields a fixed
five-part reference whose MAC matches. -/
def c7env : Env :=
  { parseDate := fun _ => none, now := 42, secret := "k",
    hmac := fun _ _ => "M", b64enc := fun s => s, b64dec := fun _ => "I1:T1:0:r:M",
    randomHex := "r", fmtDate := fun _ => "D", fmtAmt := fun _ => "A",
    resendThrows := false, notifyThrows := false, regSaveThrows := false }

/-- Paid invoice behind the ticket reference of the check-in witness. -/
def c7inv : Invoice :=
  { oid := 1, invoiceId := "I1", user := "u1", event := some "e1", amount := 500,
    status := InvStatus.paid, transactionId := some "T1",
    paidAt := some (JsDate.valid 5), receiptData := none,
    metadata := { eventName := some "Ride", place := none, time := none },
    createdAt := 0 }

/-- Not-yet-checked-in registration of the check-in witness. -/
def c7reg : EventReg :=
  { oid := 5, user := "u1", event := "e1", status := RegStatus.confirmed,
    checkedIn := false, checkedInAt := none }

/-- Store of the check-in witness. -/
def c7db : DB :=
  { invoices := [c7inv], registrations := [c7reg],
    events := [{ oid := "e1", name := "Ride" }], users := [] }

/-- C7 witness: the concrete check-in succeeds — the derived status is
`valid` and the registration is flipped to checked-in at the current time. -/
theorem c7_witness :
    (∃ td, verifyTicketReference c7db c7env "ref" = Except.ok td ∧
      td.status = TicketStatus.valid) ∧
    (∃ r, r ∈ c7db.registrations ∧ r.checkedIn = false ∧
      (markTicketUsed c7db c7env "ref").2.registrations = c7db.registrations.map (fun q =>
        if q.oid == r.oid then { q with checkedIn := true, checkedInAt := some c7env.now }
        else q)) :=
  (c7_checkin_rules c7db c7env "ref").2 (by decide)

end Reboot
